import Mathlib

/-!
Verification of the score-submission and aggregation subsystem of a
user-account / score-tracking REST backend (source: `app/services/score_service.py`,
`app/models/scores.py`, `app/utils/custom_exceptions.py`).

Modelling conventions:
* The relational store is a `List Score` in insertion order; SQL `SELECT ... WHERE`
  is `List.filter`, `ORDER BY ... DESC` is a stable sort (`List.insertionSort`
  with a non-strict "greater or equal on the key" relation), `LIMIT` is
  `List.take`, SQL `MAX`/`AVG`/`COUNT` aggregates are folds over the filtered
  rows (`AVG` over a nullable column ignores `none` entries, as SQL does).
* Python floats are modelled as exact rationals `ℚ`; timestamps as `Int`
  seconds; uuids as `Nat` identifiers.
* Python dictionaries are modelled as insertion-ordered association lists with
  lookup and insert-or-replace operations.
* Module-level rate-limit configuration read from the environment is passed
  explicitly as a `RateLimitCfg`; `datetime.now(timezone.utc)` is passed
  explicitly as `now`.
-/

/-- Test mode enumeration, from `class TestMode(str, Enum)` in `models/scores.py`. -/
inductive TestMode where
  | time
  | clicks
deriving DecidableEq, Repr

/-- String payload of the str-enum: `TestMode.TIME = "time"`, `TestMode.CLICKS = "clicks"`. -/
def TestMode.value : TestMode → String
  | .time => "time"
  | .clicks => "clicks"

/-- Allowed mode values per mode, from `VALID_MODE_VALUES` in `models/scores.py`
(the Python sets `{15, 30, 60, 120}` and `{25, 50, 100, 200}` rendered as lists). -/
def VALID_MODE_VALUES : TestMode → List Int
  | .time => [15, 30, 60, 120]
  | .clicks => [25, 50, 100, 200]

/-- One persisted row of the `scores` table (`class Score` in `models/scores.py`).
`mode` is stored as a string (the enum's `.value`), `consistency` is nullable,
`created_at` is seconds since epoch. -/
structure Score where
  id : Nat
  user_id : Nat
  mode : String
  mode_value : Int
  cps : ℚ
  total_clicks : Int
  correct_clicks : Int
  duration : ℚ
  accuracy : ℚ
  consistency : Option ℚ
  created_at : Int
deriving DecidableEq, Repr

/-- Errors raised by the score service, from `utils/custom_exceptions.py`:
`InvalidInputScoreException` (400), `InvalidScoreMetricsException` (400) and
`TooManyRequestsException` (429, carrying the Retry-After header value). -/
inductive ScoreError where
  | invalidInputScore (detail : String)
  | invalidScoreMetrics (detail : String)
  | tooManyRequests (detail : String) (retry_after : Nat)
deriving DecidableEq, Repr

/-- Rate-limit configuration: `_SCORE_RATE_LIMIT_COUNT` and
`_SCORE_RATE_LIMIT_WINDOW` (read from the environment at import time in the
source; modelled as an explicit argument). -/
structure RateLimitCfg where
  count : Nat
  window : Nat
deriving DecidableEq, Repr

/-- Detail string of `InvalidInputScoreException.__init__`:
`f"Invalid mode_value {mode_value} for {mode_name} mode. Valid values: {sorted(valid_values)}"`. -/
def invalidInputScoreDetail (mode : TestMode) (mode_value : Int) (valid_values : List Int) : String :=
  "Invalid mode_value " ++ toString mode_value ++ " for " ++ mode.value ++
    " mode. Valid values: " ++ toString (valid_values.insertionSort (· ≤ ·))

/-- Python `consistency is not None and not 0 <= consistency <= 100`. -/
def consistencyOutOfRange (consistency : Option ℚ) : Prop :=
  match consistency with
  | none => False
  | some c => ¬(0 ≤ c ∧ c ≤ 100)

instance (c : Option ℚ) : Decidable (consistencyOutOfRange c) :=
  match c with
  | none => isFalse fun h => h
  | some x => inferInstanceAs (Decidable ¬(0 ≤ x ∧ x ≤ 100))

/-- The `_enforce_submission_rate_limit` guard: disabled when either configured
threshold is 0, otherwise counts the user's rows with
`created_at >= now - window` and raises `TooManyRequestsException` with
`retry_after = window` when the count reaches `count`. -/
def enforceSubmissionRateLimit (db : List Score) (cfg : RateLimitCfg) (now : Int)
    (user_id : Nat) : Except ScoreError Unit :=
  if cfg.count = 0 ∨ cfg.window = 0 then
    .ok ()
  else
    let window_start : Int := now - cfg.window
    let submission_count := (db.filter fun s =>
      s.user_id == user_id && window_start ≤ s.created_at).length
    if submission_count ≥ cfg.count then
      .error (.tooManyRequests "Score submission rate limit exceeded" cfg.window)
    else
      .ok ()

/-- The `create_score` use case: validation checks in source order, metric
computation, rate limit, then the insert (`db.add` + `db.commit`, modelled as
appending the new row). Returns the resulting store together with the outcome;
on any raised error the store is returned as received. `newId` stands for the
generated uuid, `now` for the insertion timestamp default. -/
def createScore (db : List Score) (cfg : RateLimitCfg) (now : Int) (newId : Nat)
    (user_id : Nat) (mode : TestMode) (mode_value : Int)
    (total_clicks correct_clicks : Int) (duration : ℚ) (consistency : Option ℚ) :
    List Score × Except ScoreError Score :=
  if mode_value ∉ VALID_MODE_VALUES mode then
    (db, .error (.invalidInputScore (invalidInputScoreDetail mode mode_value (VALID_MODE_VALUES mode))))
  else if total_clicks < 0 ∨ correct_clicks < 0 then
    (db, .error (.invalidScoreMetrics "Clicks must be non-negative"))
  else if correct_clicks > total_clicks then
    (db, .error (.invalidScoreMetrics "Correct clicks cannot exceed total clicks"))
  else if duration ≤ 0 then
    (db, .error (.invalidScoreMetrics "Duration must be greater than zero"))
  else if consistencyOutOfRange consistency then
    (db, .error (.invalidScoreMetrics "Consistency must be between 0 and 100"))
  else
    let cps : ℚ := correct_clicks / duration
    let accuracy : ℚ := if 0 < total_clicks then (correct_clicks : ℚ) / total_clicks * 100 else 0
    match enforceSubmissionRateLimit db cfg now user_id with
    | .error e => (db, .error e)
    | .ok _ =>
      let new_score : Score :=
        { id := newId
          user_id := user_id
          mode := mode.value
          mode_value := mode_value
          cps := cps
          total_clicks := total_clicks
          correct_clicks := correct_clicks
          duration := duration
          accuracy := accuracy
          consistency := consistency
          created_at := now }
      (db ++ [new_score], .ok new_score)

/-- Sort key of `order_by(desc(Score.cps))`: `a` may come no later than `b`. -/
def scoreCpsGE (a b : Score) : Prop := b.cps ≤ a.cps

instance : DecidableRel scoreCpsGE := fun a b => inferInstanceAs (Decidable (b.cps ≤ a.cps))

/-- Sort key of `order_by(desc(Score.created_at))`. -/
def scoreCreatedGE (a b : Score) : Prop := b.created_at ≤ a.created_at

instance : DecidableRel scoreCreatedGE := fun a b =>
  inferInstanceAs (Decidable (b.created_at ≤ a.created_at))

/-- `get_user_best_score`: filter by user / mode / mode_value, order by cps
descending, take the first row (or `None`). The query orders by cps only. -/
def getUserBestScore (db : List Score) (user_id : Nat) (mode : TestMode)
    (mode_value : Int) : Option Score :=
  (List.insertionSort scoreCpsGE (db.filter fun s =>
    s.user_id == user_id && s.mode == mode.value && s.mode_value == mode_value)).head?

/-- `get_user_scores`: rejects `limit <= 0`, filters by user, then by mode and
mode_value — each applied only when the Python value is truthy, so a
`mode_value` of 0 (falsy) skips that filter — orders by created_at descending
and caps at `limit`. -/
def getUserScores (db : List Score) (user_id : Nat) (mode : Option TestMode)
    (mode_value : Option Int) (limit : Int) : Except ScoreError (List Score) :=
  if limit ≤ 0 then
    .error (.invalidScoreMetrics "Limit must be greater than zero")
  else
    let s1 := db.filter fun s => s.user_id == user_id
    let s2 := match mode with
      | none => s1
      | some m => s1.filter fun s => s.mode == m.value
    let s3 := match mode_value with
      | none => s2
      | some v => if v = 0 then s2 else s2.filter fun s => s.mode_value == v
    .ok ((List.insertionSort scoreCreatedGE s3).take limit.toNat)

/-- Result shape of `get_user_average_stats`. -/
structure AverageStats where
  avg_cps : ℚ
  avg_accuracy : ℚ
  avg_consistency : ℚ
  total_tests : Nat
deriving DecidableEq, Repr

/-- `get_user_average_stats`: SQL `AVG`/`COUNT` over the user's rows matching
mode and mode_value with `created_at >= since`, where
`since = now - timedelta(days=days)`. SQL `AVG` over the nullable consistency
column ignores NULL rows and is NULL when no row has a value; the source's
`float(avg or 0.0)` turns that NULL into 0.0. When the count is 0 all fields
are returned as 0. -/
def getUserAverageStats (db : List Score) (user_id : Nat) (mode : TestMode)
    (mode_value : Int) (now : Int) (days : Int) : AverageStats :=
  let since : Int := now - days * 86400
  let rows := db.filter fun s =>
    s.user_id == user_id && s.mode == mode.value && s.mode_value == mode_value &&
      since ≤ s.created_at
  let total_tests := rows.length
  if total_tests = 0 then
    { avg_cps := 0, avg_accuracy := 0, avg_consistency := 0, total_tests := 0 }
  else
    let consVals := rows.filterMap Score.consistency
    { avg_cps := (rows.map Score.cps).sum / total_tests
      avg_accuracy := (rows.map Score.accuracy).sum / total_tests
      avg_consistency :=
        if consVals.length = 0 then 0 else consVals.sum / consVals.length
      total_tests := total_tests }

/-- Rows matching the leaderboard's WHERE clause on mode and mode_value. -/
def leaderboardFilter (db : List Score) (mode : TestMode) (mode_value : Int) : List Score :=
  db.filter fun s => s.mode == mode.value && s.mode_value == mode_value

/-- The grouped subquery `select(Score.user_id, func.max(Score.cps)).group_by(Score.user_id)`:
maximum cps among the given rows belonging to the given user (`none` when the
user has no row there). -/
def maxCpsByUser (rows : List Score) (uid : Nat) : Option ℚ :=
  ((rows.filter fun s => s.user_id == uid).map Score.cps).max?

/-- `get_leaderboard`: join the mode/mode_value-filtered rows against the
per-user max-cps subquery (keeping every row whose cps equals its user's
maximum), order by cps descending, cap at `limit`. -/
def getLeaderboard (db : List Score) (mode : TestMode) (mode_value : Int)
    (limit : Nat) : List Score :=
  let filtered := leaderboardFilter db mode mode_value
  let joined := filtered.filter fun s => maxCpsByUser filtered s.user_id == some s.cps
  (List.insertionSort scoreCpsGE joined).take limit

/-- Lookup in a Python-dict model (insertion-ordered association list). -/
def dictGet {κ α : Type} [DecidableEq κ] : List (κ × α) → κ → Option α
  | [], _ => none
  | kv :: rest, k => if kv.1 = k then some kv.2 else dictGet rest k

/-- Python `d[k] = v`: replace the value in place when the key exists,
otherwise append the binding. -/
def dictPut {κ α : Type} [DecidableEq κ] (d : List (κ × α)) (k : κ) (v : α) : List (κ × α) :=
  match d with
  | [] => [(k, v)]
  | kv :: rest => if kv.1 = k then (k, v) :: rest else kv :: dictPut rest k v

/-- Inner mapping of `get_user_personal_bests`: `str(mode_value)` keys are
modelled by the integers themselves (Python's `str` is injective on ints). -/
abbrev BestsInner := List (Int × Score)

/-- Outer mapping of `get_user_personal_bests`, keyed by the mode string. -/
abbrev BestsOuter := List (String × BestsInner)

/-- Loop body of `get_user_personal_bests`: ensure the mode key exists, then
store the score under its mode_value key if absent or strictly better on cps. -/
def personalBestsStep (result : BestsOuter) (score : Score) : BestsOuter :=
  let result :=
    if (dictGet result score.mode).isNone then dictPut result score.mode [] else result
  let inner := (dictGet result score.mode).getD []
  match dictGet inner score.mode_value with
  | none => dictPut result score.mode (dictPut inner score.mode_value score)
  | some best =>
    if best.cps < score.cps then
      dictPut result score.mode (dictPut inner score.mode_value score)
    else
      result

/-- `get_user_personal_bests`: starting from `{"time": {}, "clicks": {}}`, fold
the loop body over the user's rows in table order. -/
def getUserPersonalBests (db : List Score) (user_id : Nat) : BestsOuter :=
  (db.filter fun s => s.user_id == user_id).foldl personalBestsStep
    [("time", []), ("clicks", [])]

/-- Spec-side reference for the Validator's metric rules ("Rules, checked in
this order, first failure wins"), written from the specification's wording:
the detail of the first failing metric rule, or `none` when all rules pass. -/
def specFirstMetricFailure (total_clicks correct_clicks : Int) (duration : ℚ)
    (consistency : Option ℚ) : Option String :=
  if total_clicks < 0 ∨ correct_clicks < 0 then
    some "Clicks must be non-negative"
  else if correct_clicks > total_clicks then
    some "Correct clicks cannot exceed total clicks"
  else if duration ≤ 0 then
    some "Duration must be greater than zero"
  else if ∃ c, consistency = some c ∧ (c < 0 ∨ 100 < c) then
    some "Consistency must be between 0 and 100"
  else
    none

instance (consistency : Option ℚ) :
    Decidable (∃ c, consistency = some c ∧ (c < 0 ∨ 100 < c)) :=
  match consistency with
  | none => isFalse fun ⟨_, h, _⟩ => by cases h
  | some x =>
    if hx : x < 0 ∨ 100 < x then isTrue ⟨x, rfl, hx⟩
    else isFalse fun ⟨c, hc, hr⟩ => hx ((Option.some.inj hc) ▸ hr)

/-! Basic facts used across the claim theorems. -/

theorem consistencyOutOfRange_iff (co : Option ℚ) :
    consistencyOutOfRange co ↔ ∃ c, co = some c ∧ (c < 0 ∨ 100 < c) := by
  cases co with
  | none => simp [consistencyOutOfRange]
  | some c =>
    simp only [consistencyOutOfRange, Option.some.injEq]
    constructor
    · intro h
      rcases not_and_or.mp h with h1 | h1
      · exact ⟨c, rfl, Or.inl (lt_of_not_le h1)⟩
      · exact ⟨c, rfl, Or.inr (lt_of_not_le h1)⟩
    · rintro ⟨x, rfl, hx | hx⟩
      · exact fun hc => absurd hc.1 (not_le.mpr hx)
      · exact fun hc => absurd hc.2 (not_le.mpr hx)

/-- Structural case split of `createScore`: either a check failed and the store
is returned untouched, or the new row was appended and returned. -/
theorem createScore_cases (db : List Score) (cfg : RateLimitCfg) (now : Int)
    (newId : Nat) (uid : Nat) (mode : TestMode) (mode_value : Int)
    (total_clicks correct_clicks : Int) (duration : ℚ) (consistency : Option ℚ) :
    (∃ e, createScore db cfg now newId uid mode mode_value total_clicks
        correct_clicks duration consistency = (db, .error e)) ∨
    (∃ s, createScore db cfg now newId uid mode mode_value total_clicks
        correct_clicks duration consistency = (db ++ [s], .ok s)) := by
  unfold createScore
  repeat' split
  all_goals first
    | exact Or.inl ⟨_, rfl⟩
    | exact Or.inr ⟨_, rfl⟩


instance {ε α : Type} [DecidableEq ε] [DecidableEq α] : DecidableEq (Except ε α) := fun a b =>
  match a, b with
  | .ok x, .ok y => decidable_of_iff (x = y) (by simp)
  | .error x, .error y => decidable_of_iff (x = y) (by simp)
  | .ok _, .error _ => isFalse (by simp)
  | .error _, .ok _ => isFalse (by simp)

/-- Claim C3: for every successful `create_score` call, the persisted score
satisfies `cps = correct_clicks / duration`, and
`accuracy = correct_clicks / total_clicks * 100` when `total_clicks > 0` and
`accuracy = 0` when `total_clicks = 0`. -/
theorem c3_create_score_metrics (db : List Score) (cfg : RateLimitCfg) (now : Int)
    (newId : Nat) (uid : Nat) (mode : TestMode) (mode_value : Int)
    (total_clicks correct_clicks : Int) (duration : ℚ) (consistency : Option ℚ)
    (s : Score)
    (h : (createScore db cfg now newId uid mode mode_value total_clicks
        correct_clicks duration consistency).2 = .ok s) :
    s.cps = (correct_clicks : ℚ) / duration ∧
    (0 < total_clicks → s.accuracy = (correct_clicks : ℚ) / total_clicks * 100) ∧
    (total_clicks = 0 → s.accuracy = 0) := by
  unfold createScore at h
  repeat' split at h
  all_goals simp at h
  all_goals subst h
  · exact ⟨rfl, fun _ => rfl, fun h0 => by exfalso; omega⟩
  · exact ⟨rfl, fun hp => by exfalso; omega, fun _ => rfl⟩

/-- Expected persisted row for the concrete scenario of claim C3:
`total_clicks = 120`, `correct_clicks = 100`, `duration = 30` give
`cps = 10/3` and `accuracy = 250/3`. -/
def c3ExpectedScore : Score :=
  { id := 1
    user_id := 7
    mode := "time"
    mode_value := 30
    cps := 10 / 3
    total_clicks := 120
    correct_clicks := 100
    duration := 30
    accuracy := 250 / 3
    consistency := some 85
    created_at := 1000 }

theorem c3_witness :
    (createScore [] ⟨60, 60⟩ 1000 1 7 .time 30 120 100 30 (some 85)).2 =
      .ok c3ExpectedScore ∧
    c3ExpectedScore.cps = (100 : ℚ) / 30 ∧
    (0 < (120 : Int) → c3ExpectedScore.accuracy = (100 : ℚ) / 120 * 100) ∧
    ((120 : Int) = 0 → c3ExpectedScore.accuracy = 0) := by
  have h : (createScore [] ⟨60, 60⟩ 1000 1 7 .time 30 120 100 30 (some 85)).2 =
      .ok c3ExpectedScore := by
    norm_num [createScore, VALID_MODE_VALUES, consistencyOutOfRange,
      enforceSubmissionRateLimit, c3ExpectedScore, TestMode.value]
  exact ⟨h, c3_create_score_metrics [] ⟨60, 60⟩ 1000 1 7 .time 30 120 100 30
    (some 85) c3ExpectedScore h⟩

/-- Claim C5: whenever `create_score` raises (a validation error or the
rate-limit error — the only errors the service itself raises; a commit-time
`SQLAlchemyError` is an environment fault outside this model, and the source
rolls it back), the stored set of scores is unchanged: every raise happens
before the insert. -/
theorem c5_no_write_on_failure (db : List Score) (cfg : RateLimitCfg) (now : Int)
    (newId : Nat) (uid : Nat) (mode : TestMode) (mode_value : Int)
    (total_clicks correct_clicks : Int) (duration : ℚ) (consistency : Option ℚ)
    (e : ScoreError)
    (h : (createScore db cfg now newId uid mode mode_value total_clicks
        correct_clicks duration consistency).2 = .error e) :
    (createScore db cfg now newId uid mode mode_value total_clicks
        correct_clicks duration consistency).1 = db := by
  rcases createScore_cases db cfg now newId uid mode mode_value total_clicks
      correct_clicks duration consistency with ⟨e2, he⟩ | ⟨s, hs⟩
  · rw [he]
  · rw [hs] at h
    simp at h

theorem c5_witness :
    (createScore [] ⟨60, 60⟩ 0 1 7 .clicks 999 5 3 10 none).2 =
      .error (.invalidInputScore
        "Invalid mode_value 999 for clicks mode. Valid values: [25, 50, 100, 200]") ∧
    (createScore [] ⟨60, 60⟩ 0 1 7 .clicks 999 5 3 10 none).1 = [] := by
  have h : (createScore [] ⟨60, 60⟩ 0 1 7 .clicks 999 5 3 10 none).2 =
      .error (.invalidInputScore
        "Invalid mode_value 999 for clicks mode. Valid values: [25, 50, 100, 200]") := by
    decide
  exact ⟨h, c5_no_write_on_failure [] ⟨60, 60⟩ 0 1 7 .clicks 999 5 3 10 none _ h⟩

/-- Claim C4: with both thresholds nonzero, the rate-limit check fails with the
429 error carrying `retry_after = window` exactly when the user already has at
least `count` rows with `created_at >= now - window`; with either threshold 0
it always passes; and passing means `.ok`.  -/
theorem c4_rate_limit (db : List Score) (cfg : RateLimitCfg) (now : Int) (uid : Nat) :
    ((cfg.count = 0 ∨ cfg.window = 0) →
      enforceSubmissionRateLimit db cfg now uid = .ok ()) ∧
    (cfg.count ≠ 0 → cfg.window ≠ 0 →
      ((enforceSubmissionRateLimit db cfg now uid =
          .error (.tooManyRequests "Score submission rate limit exceeded" cfg.window)) ↔
        cfg.count ≤ (db.filter fun s =>
          decide (s.user_id = uid ∧ now - (cfg.window : Int) ≤ s.created_at)).length)) ∧
    (enforceSubmissionRateLimit db cfg now uid = .ok () ∨
      enforceSubmissionRateLimit db cfg now uid =
        .error (.tooManyRequests "Score submission rate limit exceeded" cfg.window)) := by
  have hfilter : (db.filter fun s =>
        s.user_id == uid && decide (now - (cfg.window : Int) ≤ s.created_at)) =
      (db.filter fun s =>
        decide (s.user_id = uid ∧ now - (cfg.window : Int) ≤ s.created_at)) := by
    apply List.filter_congr
    intro a _
    by_cases hu : a.user_id = uid <;> simp [hu]
  refine ⟨fun h => by simp [enforceSubmissionRateLimit, h], fun h1 h2 => ?_, ?_⟩
  · rw [← hfilter]
    simp only [enforceSubmissionRateLimit]
    rw [if_neg (by tauto)]
    split
    · rename_i hge
      simp only [ge_iff_le] at hge
      exact iff_of_true rfl (hfilter ▸ hge)
    · rename_i hlt
      simp only [ge_iff_le, not_le] at hlt
      exact iff_of_false (by simp) (by omega)
  · unfold enforceSubmissionRateLimit
    repeat' split
    all_goals simp
    all_goals omega

/-- Helper for concrete rows used in witnesses and counterexamples. -/
def mkScore (i uid : Nat) (m : String) (mv : Int) (c : ℚ) (created : Int)
    (cons : Option ℚ) : Score :=
  { id := i
    user_id := uid
    mode := m
    mode_value := mv
    cps := c
    total_clicks := 10
    correct_clicks := 10
    duration := 1
    accuracy := 100
    consistency := cons
    created_at := created }

/-- Two submissions of user 7 inside the window that starts at `30 - 60`. -/
def c4Db : List Score :=
  [mkScore 1 7 "time" 30 5 10 none, mkScore 2 7 "time" 30 4 20 none]

theorem c4_witness :
    ((2 : Nat) ≠ 0 ∧ (60 : Nat) ≠ 0) ∧
    enforceSubmissionRateLimit c4Db ⟨2, 60⟩ 30 7 =
      .error (.tooManyRequests "Score submission rate limit exceeded" 60) ∧
    enforceSubmissionRateLimit [mkScore 1 7 "time" 30 5 10 none] ⟨2, 60⟩ 30 7 =
      .ok () ∧
    enforceSubmissionRateLimit c4Db ⟨0, 60⟩ 30 7 = .ok () := by
  refine ⟨⟨by decide, by decide⟩, ?_, ?_, ?_⟩
  · exact ((c4_rate_limit c4Db ⟨2, 60⟩ 30 7).2.1 (by decide) (by decide)).mpr (by decide)
  · rcases (c4_rate_limit [mkScore 1 7 "time" 30 5 10 none] ⟨2, 60⟩ 30 7).2.2 with h | h
    · exact h
    · exact absurd (((c4_rate_limit [mkScore 1 7 "time" 30 5 10 none] ⟨2, 60⟩ 30 7).2.1
        (by decide) (by decide)).mp h) (by decide)
  · exact (c4_rate_limit c4Db ⟨0, 60⟩ 30 7).1 (Or.inl rfl)

/-- Exhaustive outcomes of the rate-limit guard, shared by several proofs. -/
theorem enforceSubmissionRateLimit_cases (db : List Score) (cfg : RateLimitCfg)
    (now : Int) (uid : Nat) :
    enforceSubmissionRateLimit db cfg now uid = .ok () ∨
    enforceSubmissionRateLimit db cfg now uid =
      .error (.tooManyRequests "Score submission rate limit exceeded" cfg.window) := by
  unfold enforceSubmissionRateLimit
  repeat' split
  all_goals simp
  all_goals omega

/-- Claim C6: with a valid mode_value, `create_score` fails with
`InvalidScoreMetricsException` exactly when some metric rule is violated
(negative clicks, correct > total, non-positive duration, or a present
consistency outside [0, 100]), and the raised detail is the one of the first
violated rule in source order (`specFirstMetricFailure` restates the claimed
order from the spec wording). -/
theorem c6_invalid_metrics (db : List Score) (cfg : RateLimitCfg) (now : Int)
    (newId : Nat) (uid : Nat) (mode : TestMode) (mode_value : Int)
    (total_clicks correct_clicks : Int) (duration : ℚ) (consistency : Option ℚ)
    (hmv : mode_value ∈ VALID_MODE_VALUES mode) :
    ((∃ d, (createScore db cfg now newId uid mode mode_value total_clicks
        correct_clicks duration consistency).2 = .error (.invalidScoreMetrics d)) ↔
      (total_clicks < 0 ∨ correct_clicks < 0 ∨ total_clicks < correct_clicks ∨
        duration ≤ 0 ∨ ∃ c, consistency = some c ∧ (c < 0 ∨ 100 < c))) ∧
    (∀ d, (createScore db cfg now newId uid mode mode_value total_clicks
        correct_clicks duration consistency).2 = .error (.invalidScoreMetrics d) →
      specFirstMetricFailure total_clicks correct_clicks duration consistency = some d) := by
  have hrl := enforceSubmissionRateLimit_cases db cfg now uid
  unfold createScore
  rw [if_neg (not_not_intro hmv)]
  refine ⟨⟨?_, ?_⟩, ?_⟩
  · rintro ⟨d, hd⟩
    split_ifs at hd with h2 h3 h4 h5
    · rcases h2 with h | h
      · exact Or.inl h
      · exact Or.inr (Or.inl h)
    · exact Or.inr (Or.inr (Or.inl h3))
    · exact Or.inr (Or.inr (Or.inr (Or.inl h4)))
    · exact Or.inr (Or.inr (Or.inr (Or.inr ((consistencyOutOfRange_iff consistency).mp h5))))
    all_goals rcases hrl with h | h <;> rw [h] at hd <;> simp at hd
  · intro hdisj
    by_cases h2 : total_clicks < 0 ∨ correct_clicks < 0
    · exact ⟨"Clicks must be non-negative", by rw [if_pos h2]⟩
    by_cases h3 : correct_clicks > total_clicks
    · exact ⟨"Correct clicks cannot exceed total clicks", by rw [if_neg h2, if_pos h3]⟩
    by_cases h4 : duration ≤ 0
    · exact ⟨"Duration must be greater than zero", by rw [if_neg h2, if_neg h3, if_pos h4]⟩
    by_cases h5 : consistencyOutOfRange consistency
    · exact ⟨"Consistency must be between 0 and 100",
        by rw [if_neg h2, if_neg h3, if_neg h4, if_pos h5]⟩
    · exfalso
      rw [consistencyOutOfRange_iff] at h5
      rcases hdisj with h | h | h | h | h
      · omega
      · omega
      · omega
      · exact h4 h
      · exact h5 h
  · intro d hd
    split_ifs at hd with h2 h3 h4 h5
    · simp at hd
      subst hd
      simp [specFirstMetricFailure, h2]
    · simp at hd
      subst hd
      simp [specFirstMetricFailure, h2, h3]
    · simp at hd
      subst hd
      simp [specFirstMetricFailure, h2, h3, h4]
    · simp at hd
      subst hd
      have h5x := (consistencyOutOfRange_iff consistency).mp h5
      simp [specFirstMetricFailure, h2, h3, h4, h5x]
    all_goals rcases hrl with h | h <;> rw [h] at hd <;> simp at hd

/-- Claim C7: with an invalid mode_value, `create_score` fails with
`InvalidInputScoreException` regardless of all metric arguments (so before any
metric check), and the error detail contains the mode name and the sorted list
of the mode's valid values. -/
theorem c7_invalid_mode_value (db : List Score) (cfg : RateLimitCfg) (now : Int)
    (newId : Nat) (uid : Nat) (mode : TestMode) (mode_value : Int)
    (total_clicks correct_clicks : Int) (duration : ℚ) (consistency : Option ℚ)
    (hmv : mode_value ∉ VALID_MODE_VALUES mode) :
    (createScore db cfg now newId uid mode mode_value total_clicks correct_clicks
        duration consistency).2 =
      .error (.invalidInputScore (invalidInputScoreDetail mode mode_value
        (VALID_MODE_VALUES mode))) ∧
    (∃ p q, invalidInputScoreDetail mode mode_value (VALID_MODE_VALUES mode) =
        p ++ mode.value ++ q) ∧
    (∃ p q, invalidInputScoreDetail mode mode_value (VALID_MODE_VALUES mode) =
        p ++ toString ((VALID_MODE_VALUES mode).insertionSort (· ≤ ·)) ++ q) ∧
    List.Sorted (· ≤ ·) ((VALID_MODE_VALUES mode).insertionSort (· ≤ ·)) := by
  refine ⟨?_, ?_, ?_, ?_⟩
  · unfold createScore
    rw [if_pos hmv]
  · exact ⟨"Invalid mode_value " ++ toString mode_value ++ " for ",
      " mode. Valid values: " ++ toString ((VALID_MODE_VALUES mode).insertionSort (· ≤ ·)),
      by simp [invalidInputScoreDetail, String.append_assoc]⟩
  · exact ⟨"Invalid mode_value " ++ toString mode_value ++ " for " ++ mode.value ++
        " mode. Valid values: ", "",
      by simp [invalidInputScoreDetail, String.append_assoc]⟩
  · exact List.sorted_insertionSort _ _

/-- Claim C10: `get_user_scores` with `mode_value = 0` behaves exactly like
`get_user_scores` with no mode_value filter, because Python's truthiness test
`if mode_value:` treats 0 as absent. -/
theorem c10_mode_value_zero (db : List Score) (uid : Nat) (mode : Option TestMode)
    (limit : Int) (hl : 0 < limit) :
    getUserScores db uid mode (some 0) limit = getUserScores db uid mode none limit := by
  simp [getUserScores, not_le.mpr hl]

theorem c10_witness :
    (0 : Int) < 10 ∧
    getUserScores [mkScore 1 7 "time" 30 5 10 none] 7 none (some 0) 10 =
      getUserScores [mkScore 1 7 "time" 30 5 10 none] 7 none none 10 :=
  ⟨by decide, c10_mode_value_zero [mkScore 1 7 "time" 30 5 10 none] 7 none 10 (by decide)⟩

theorem c6_witness :
    (30 : Int) ∈ VALID_MODE_VALUES .time ∧
    (createScore [] ⟨60, 60⟩ 0 1 7 .time 30 5 10 10 none).2 =
      .error (.invalidScoreMetrics "Correct clicks cannot exceed total clicks") ∧
    specFirstMetricFailure 5 10 10 none =
      some "Correct clicks cannot exceed total clicks" := by
  have hd : (createScore [] ⟨60, 60⟩ 0 1 7 .time 30 5 10 10 none).2 =
      .error (.invalidScoreMetrics "Correct clicks cannot exceed total clicks") := by decide
  exact ⟨by decide, hd,
    (c6_invalid_metrics [] ⟨60, 60⟩ 0 1 7 .time 30 5 10 10 none (by decide)).2 _ hd⟩

theorem c7_witness :
    ((999 : Int) ∉ VALID_MODE_VALUES .clicks) ∧
    invalidInputScoreDetail .clicks 999 (VALID_MODE_VALUES .clicks) =
      "Invalid mode_value 999 for clicks mode. Valid values: [25, 50, 100, 200]" ∧
    ((createScore [] ⟨60, 60⟩ 0 1 7 .clicks 999 120 100 30 none).2 =
      .error (.invalidInputScore (invalidInputScoreDetail .clicks 999
        (VALID_MODE_VALUES .clicks))) ∧
    (∃ p q, invalidInputScoreDetail .clicks 999 (VALID_MODE_VALUES .clicks) =
        p ++ TestMode.value .clicks ++ q) ∧
    (∃ p q, invalidInputScoreDetail .clicks 999 (VALID_MODE_VALUES .clicks) =
        p ++ toString ((VALID_MODE_VALUES .clicks).insertionSort (· ≤ ·)) ++ q) ∧
    List.Sorted (· ≤ ·) ((VALID_MODE_VALUES .clicks).insertionSort (· ≤ ·))) :=
  ⟨by decide, by decide,
    c7_invalid_mode_value [] ⟨60, 60⟩ 0 1 7 .clicks 999 120 100 30 none (by decide)⟩

/-- Claim C9: `get_user_average_stats` returns the arithmetic means of cps,
accuracy and consistency over the user's rows matching mode and mode_value with
`created_at >= since` (`since = now - days` in seconds), the consistency mean
ignoring rows with absent consistency; zero matching rows give all-zero
averages and `total_tests = 0` (and, per the source's `float(avg or 0.0)`,
the consistency average is also 0 when no matching row carries a
consistency value). -/
theorem c9_average_stats (db : List Score) (uid : Nat) (mode : TestMode)
    (mode_value : Int) (now : Int) (days : Int) :
    (getUserAverageStats db uid mode mode_value now days).total_tests =
      (db.filter fun s => decide (s.user_id = uid ∧ s.mode = mode.value ∧
        s.mode_value = mode_value ∧ now - days * 86400 ≤ s.created_at)).length ∧
    ((db.filter fun s => decide (s.user_id = uid ∧ s.mode = mode.value ∧
        s.mode_value = mode_value ∧ now - days * 86400 ≤ s.created_at)) = [] →
      getUserAverageStats db uid mode mode_value now days = ⟨0, 0, 0, 0⟩) ∧
    (∀ rows, rows = (db.filter fun s => decide (s.user_id = uid ∧ s.mode = mode.value ∧
        s.mode_value = mode_value ∧ now - days * 86400 ≤ s.created_at)) → rows ≠ [] →
      (getUserAverageStats db uid mode mode_value now days).avg_cps =
        (rows.map Score.cps).sum / rows.length ∧
      (getUserAverageStats db uid mode mode_value now days).avg_accuracy =
        (rows.map Score.accuracy).sum / rows.length ∧
      ((rows.filterMap Score.consistency) ≠ [] →
        (getUserAverageStats db uid mode mode_value now days).avg_consistency =
          (rows.filterMap Score.consistency).sum / (rows.filterMap Score.consistency).length) ∧
      ((rows.filterMap Score.consistency) = [] →
        (getUserAverageStats db uid mode mode_value now days).avg_consistency = 0)) := by
  have hf : (db.filter fun s => s.user_id == uid && s.mode == mode.value &&
        s.mode_value == mode_value && decide (now - (days * 86400) ≤ s.created_at)) =
      (db.filter fun s => decide (s.user_id = uid ∧ s.mode = mode.value ∧
        s.mode_value = mode_value ∧ now - days * 86400 ≤ s.created_at)) := by
    apply List.filter_congr
    intro a _
    by_cases h1 : a.user_id = uid <;> by_cases h2 : a.mode = mode.value <;>
      by_cases h3 : a.mode_value = mode_value <;> simp [h1, h2, h3, and_assoc]
  simp only [getUserAverageStats]
  rw [hf]
  set rows := db.filter fun s => decide (s.user_id = uid ∧ s.mode = mode.value ∧
    s.mode_value = mode_value ∧ now - days * 86400 ≤ s.created_at) with hrows
  by_cases hn : rows.length = 0
  · simp [hn, List.length_eq_zero.mp hn]
  · have hne : rows ≠ [] := fun h => hn (by simp [h])
    rw [if_neg hn]
    refine ⟨rfl, fun h => absurd h hne, fun rows2 h2 hne2 => ?_⟩
    subst h2
    refine ⟨rfl, rfl, fun hcne => ?_, fun hce => ?_⟩
    · have hc : ¬(rows.filterMap Score.consistency).length = 0 := fun h0 =>
        hcne (List.length_eq_zero.mp h0)
      simp [hc]
    · simp [hce]

/-- Two matching rows of user 7, one with a consistency value, for the C9
witness. -/
def c9Db : List Score :=
  [mkScore 1 7 "time" 30 5 10 (some 80), mkScore 2 7 "time" 30 3 20 none]

theorem c9_witness :
    c9Db = (c9Db.filter fun s => decide (s.user_id = 7 ∧ s.mode = TestMode.value .time ∧
        s.mode_value = 30 ∧ (100 : Int) - 30 * 86400 ≤ s.created_at)) ∧
    c9Db ≠ [] ∧
    (getUserAverageStats c9Db 7 .time 30 100 30).avg_cps =
      (c9Db.map Score.cps).sum / c9Db.length ∧
    (getUserAverageStats c9Db 7 .time 30 100 30).avg_cps = 4 := by
  have h3 := (c9_average_stats c9Db 7 .time 30 100 30).2.2 c9Db (by decide) (by decide)
  refine ⟨by decide, by decide, h3.1, ?_⟩
  · rw [h3.1]
    norm_num [c9Db, mkScore]

instance : IsTotal Score scoreCpsGE := ⟨fun a b => le_total b.cps a.cps⟩

instance : IsTrans Score scoreCpsGE := ⟨fun _ _ _ hab hbc => le_trans hbc hab⟩

/-- Matching rows of user 7 tied on maximum cps with distinct `created_at`,
exhibiting that `get_user_best_score` does not break ties by recency. -/
def c2Early : Score := mkScore 1 7 "time" 30 5 10 none

def c2Late : Score := mkScore 2 7 "time" 30 5 20 none

/-- Claim C2 counterexample: with two matching rows tied on maximum cps, the
query (ordered by cps only) returns the earlier-positioned row `c2Early`, not
the row with the most recent `created_at`. -/
theorem c2_counterexample :
    getUserBestScore [c2Early, c2Late] 7 .time 30 = some c2Early ∧
    c2Late.user_id = 7 ∧ c2Late.mode = TestMode.value .time ∧ c2Late.mode_value = 30 ∧
    c2Early.cps = c2Late.cps ∧ c2Early.created_at < c2Late.created_at ∧
    c2Early ≠ c2Late := by decide

/-- Claim C2 (amended): `get_user_best_score` returns `None` exactly when the
user has no row matching mode and mode_value, and otherwise some matching row
of maximum cps; the tie among equal-cps rows is NOT broken by `created_at`
(the query orders by cps only). -/
theorem c2_best_score_amended (db : List Score) (uid : Nat) (mode : TestMode) (mv : Int) :
    (getUserBestScore db uid mode mv = none ↔
      (db.filter fun s => s.user_id == uid && s.mode == mode.value && s.mode_value == mv) = []) ∧
    (∀ s, getUserBestScore db uid mode mv = some s →
      s ∈ db ∧ s.user_id = uid ∧ s.mode = mode.value ∧ s.mode_value = mv ∧
      ∀ t ∈ db, t.user_id = uid → t.mode = mode.value → t.mode_value = mv →
        t.cps ≤ s.cps) := by
  have hperm := List.perm_insertionSort scoreCpsGE
    (db.filter fun s => s.user_id == uid && s.mode == mode.value && s.mode_value == mv)
  have hsorted := List.sorted_insertionSort scoreCpsGE
    (db.filter fun s => s.user_id == uid && s.mode == mode.value && s.mode_value == mv)
  constructor
  · unfold getUserBestScore
    rw [List.head?_eq_none_iff]
    constructor
    · intro h
      exact (h ▸ hperm.symm).eq_nil
    · intro h
      rw [h]
      rfl
  · intro s hs
    unfold getUserBestScore at hs
    have hmem := List.mem_of_mem_head? (Option.mem_def.mpr hs)
    have hmeml := hperm.mem_iff.mp hmem
    have hmax : ∀ t ∈ (db.filter fun s =>
        s.user_id == uid && s.mode == mode.value && s.mode_value == mv), t.cps ≤ s.cps := by
      intro t ht
      have htmem := hperm.mem_iff.mpr ht
      cases hsort : List.insertionSort scoreCpsGE (db.filter fun s =>
          s.user_id == uid && s.mode == mode.value && s.mode_value == mv) with
      | nil =>
        rw [hsort] at hmem
        cases hmem
      | cons a as =>
        rw [hsort] at hs htmem
        simp at hs
        subst hs
        rcases List.mem_cons.mp htmem with h | h
        · exact le_of_eq (congrArg Score.cps h)
        · exact List.rel_of_sorted_cons (hsort ▸ hsorted) t h
    obtain ⟨hdb, hcond⟩ := List.mem_filter.mp hmeml
    simp at hcond
    exact ⟨hdb, hcond.1.1, hcond.1.2, hcond.2, fun t htdb h1 h2 h3 =>
      hmax t (List.mem_filter.mpr ⟨htdb, by simp [h1, h2, h3]⟩)⟩

theorem c2_amended_witness :
    getUserBestScore [] 7 .time 30 = none ∧
    getUserBestScore [c2Early] 7 .time 30 = some c2Early ∧
    (c2Early ∈ [c2Early] ∧ c2Early.user_id = 7 ∧ c2Early.mode = TestMode.value .time ∧
      c2Early.mode_value = 30 ∧
      ∀ t ∈ [c2Early], t.user_id = 7 → t.mode = TestMode.value .time → t.mode_value = 30 →
        t.cps ≤ c2Early.cps) := by
  refine ⟨(c2_best_score_amended [] 7 .time 30).1.mpr rfl, by decide, ?_⟩
  exact (c2_best_score_amended [c2Early] 7 .time 30).2 c2Early (by decide)

theorem le_of_mem_rat_max (l : List ℚ) (q x : ℚ) (h : l.max? = some q) (hx : x ∈ l) :
    x ≤ q := by
  haveI : Std.Antisymm fun x1 x2 : ℚ => x1 ≤ x2 := ⟨fun h1 h2 => le_antisymm h1 h2⟩
  rw [List.max?_eq_some_iff le_refl (fun a b => max_choice a b)
    (fun a b c => max_le_iff)] at h
  exact h.2 x hx

/-- Rows for the C1 counterexample: user 7 has two rows tied at their maximum
cps 5, user 8 one row with cps 4, all for mode time / value 30. -/
def c1Dup1 : Score := mkScore 1 7 "time" 30 5 10 none

def c1Dup2 : Score := mkScore 2 7 "time" 30 5 20 none

def c1Other : Score := mkScore 3 8 "time" 30 4 30 none

def c1Db : List Score := [c1Dup1, c1Dup2, c1Other]

/-- Claim C1 counterexample: the leaderboard join keeps every row whose cps
equals its user's maximum, so user 7's two tied rows both appear — the entries
are not per-user distinct. -/
theorem c1_counterexample :
    (getLeaderboard c1Db .time 30 10).map Score.user_id = [7, 7, 8] ∧
    ¬ List.Pairwise (fun a b => a.user_id ≠ b.user_id) (getLeaderboard c1Db .time 30 10) := by
  decide

/-- Claim C1 (amended): `get_leaderboard` returns at most `limit` entries,
ordered by cps descending, each a stored row matching the mode and mode_value
whose cps equals the maximum cps of its user among matching rows; two entries
of the same user carry equal cps (a user appears once per row tied at their
maximum, rather than exactly once). -/
theorem c1_leaderboard_amended (db : List Score) (mode : TestMode) (mv : Int)
    (limit : Nat) :
    (getLeaderboard db mode mv limit).length ≤ limit ∧
    List.Sorted scoreCpsGE (getLeaderboard db mode mv limit) ∧
    (∀ s ∈ getLeaderboard db mode mv limit,
      s ∈ db ∧ s.mode = mode.value ∧ s.mode_value = mv ∧
      ∀ t ∈ db, t.mode = mode.value → t.mode_value = mv → t.user_id = s.user_id →
        t.cps ≤ s.cps) ∧
    (∀ s ∈ getLeaderboard db mode mv limit, ∀ t ∈ getLeaderboard db mode mv limit,
      s.user_id = t.user_id → s.cps = t.cps) := by
  have hdef : getLeaderboard db mode mv limit =
      (List.insertionSort scoreCpsGE ((leaderboardFilter db mode mv).filter fun s =>
        maxCpsByUser (leaderboardFilter db mode mv) s.user_id == some s.cps)).take limit := rfl
  have hperm := List.perm_insertionSort scoreCpsGE
    ((leaderboardFilter db mode mv).filter fun s =>
      maxCpsByUser (leaderboardFilter db mode mv) s.user_id == some s.cps)
  have hmemdb : ∀ s ∈ getLeaderboard db mode mv limit,
      s ∈ db ∧ s.mode = mode.value ∧ s.mode_value = mv ∧
      ∀ t ∈ db, t.mode = mode.value → t.mode_value = mv → t.user_id = s.user_id →
        t.cps ≤ s.cps := by
    intro s hs
    rw [hdef] at hs
    have hjmem := hperm.mem_iff.mp ((List.take_sublist _ _).subset hs)
    obtain ⟨hfmem, hcond⟩ := List.mem_filter.mp hjmem
    have hmax : maxCpsByUser (leaderboardFilter db mode mv) s.user_id = some s.cps := by
      simpa using hcond
    obtain ⟨hdb, hmode⟩ := List.mem_filter.mp hfmem
    simp at hmode
    refine ⟨hdb, hmode.1, hmode.2, fun t htdb h1 h2 h3 => ?_⟩
    refine le_of_mem_rat_max _ _ _ hmax ?_
    exact List.mem_map.mpr ⟨t, List.mem_filter.mpr
      ⟨List.mem_filter.mpr ⟨htdb, by simp [h1, h2]⟩, by simp [h3]⟩, rfl⟩
  refine ⟨?_, ?_, hmemdb, ?_⟩
  · rw [hdef]
    exact List.length_take_le _ _
  · rw [hdef]
    exact List.Pairwise.sublist (List.take_sublist _ _) (List.sorted_insertionSort _ _)
  · intro s hs t ht hu
    obtain ⟨hsdb, hsmode, hsmv, hsmax⟩ := hmemdb s hs
    obtain ⟨htdb, htmode, htmv, htmax⟩ := hmemdb t ht
    exact le_antisymm (htmax s hsdb hsmode hsmv hu) (hsmax t htdb htmode htmv hu.symm)

theorem c1_amended_witness :
    (getLeaderboard c1Db .time 30 2).length ≤ 2 ∧
    (c1Dup1 ∈ c1Db ∧ c1Dup1.mode = TestMode.value .time ∧ c1Dup1.mode_value = 30 ∧
      ∀ t ∈ c1Db, t.mode = TestMode.value .time → t.mode_value = 30 →
        t.user_id = c1Dup1.user_id → t.cps ≤ c1Dup1.cps) :=
  ⟨(c1_leaderboard_amended c1Db .time 30 2).1,
    (c1_leaderboard_amended c1Db .time 30 10).2.2.1 c1Dup1 (by decide)⟩

theorem dictGet_dictPut_self {κ α : Type} [DecidableEq κ] (d : List (κ × α))
    (k : κ) (v : α) : dictGet (dictPut d k v) k = some v := by
  induction d with
  | nil => simp [dictPut, dictGet]
  | cons kv rest ih =>
    by_cases h : kv.1 = k <;> simp [dictPut, dictGet, h, ih]

theorem dictGet_dictPut_ne {κ α : Type} [DecidableEq κ] (d : List (κ × α))
    (k k2 : κ) (v : α) (h : k2 ≠ k) :
    dictGet (dictPut d k v) k2 = dictGet d k2 := by
  have h2 : ¬k = k2 := fun he => h he.symm
  induction d with
  | nil => simp [dictPut, dictGet, h2]
  | cons kv rest ih =>
    by_cases hk : kv.1 = k
    · subst hk
      simp [dictPut, dictGet, h2]
    · simp [dictPut, dictGet, hk, ih]

/-- Value stored under the current row's mode key after one loop iteration of
`get_user_personal_bests` (helper restatement of the loop body's effect). -/
def stepInner (result : BestsOuter) (score : Score) : BestsInner :=
  let inner := (dictGet result score.mode).getD []
  match dictGet inner score.mode_value with
  | none => dictPut inner score.mode_value score
  | some best =>
    if best.cps < score.cps then dictPut inner score.mode_value score else inner

theorem dictGet_personalBestsStep (r : BestsOuter) (x : Score) (k : String) :
    dictGet (personalBestsStep r x) k =
      if k = x.mode then some (stepInner r x) else dictGet r k := by
  unfold personalBestsStep stepInner
  cases hm : dictGet r x.mode with
  | none =>
    simp only [hm, Option.isNone_none, if_pos, Option.getD_none,
      dictGet_dictPut_self, Option.getD_some]
    cases hb : dictGet ([] : BestsInner) x.mode_value with
    | none =>
      by_cases hk : k = x.mode
      · subst hk
        simp [dictGet_dictPut_self]
      · simp [hk, dictGet_dictPut_ne _ _ _ _ hk, hm]
    | some b => simp [dictGet] at hb
  | some i =>
    simp only [hm, Option.isNone_some, Bool.false_eq_true, if_false, Option.getD_some]
    cases hb : dictGet i x.mode_value with
    | none =>
      by_cases hk : k = x.mode
      · subst hk
        simp [dictGet_dictPut_self]
      · simp [hk, dictGet_dictPut_ne _ _ _ _ hk, hm]
    | some best =>
      by_cases hlt : best.cps < x.cps
      · by_cases hk : k = x.mode
        · subst hk
          simp [hlt, dictGet_dictPut_self]
        · simp [hk, hlt, dictGet_dictPut_ne _ _ _ _ hk, hm]
      · by_cases hk : k = x.mode
        · subst hk
          simp [hlt, hm]
        · simp [hk, hlt, hm]

theorem dictGet_stepInner (r : BestsOuter) (x : Score) (v : Int) :
    dictGet (stepInner r x) v =
      if v = x.mode_value then
        some (match dictGet ((dictGet r x.mode).getD []) x.mode_value with
          | none => x
          | some best => if best.cps < x.cps then x else best)
      else dictGet ((dictGet r x.mode).getD []) v := by
  unfold stepInner
  cases hb : dictGet ((dictGet r x.mode).getD []) x.mode_value with
  | none =>
    by_cases hv : v = x.mode_value
    · subst hv
      simp [dictGet_dictPut_self, hb]
    · simp [hv, dictGet_dictPut_ne _ _ _ _ hv, hb]
  | some best =>
    by_cases hlt : best.cps < x.cps
    · by_cases hv : v = x.mode_value
      · subst hv
        simp [hlt, dictGet_dictPut_self, hb]
      · simp [hv, hlt, dictGet_dictPut_ne _ _ _ _ hv, hb]
    · by_cases hv : v = x.mode_value
      · subst hv
        simp [hlt, hb]
      · simp [hv, hlt, hb]

/-- Loop invariant of `get_user_personal_bests`: after folding the rows of
`pre`, every processed row's mode key is present; an inner key is present
exactly for the mode_values seen in `pre` under that mode; and every stored
entry is a processed row of its mode and mode_value with maximal cps among
the processed rows for that combination. -/
def BestsInv (pre : List Score) (r : BestsOuter) : Prop :=
  (∀ s ∈ pre, (dictGet r s.mode).isSome = true) ∧
  (∀ m inner, dictGet r m = some inner →
    ∀ v, (dictGet inner v).isSome = true ↔ ∃ s ∈ pre, s.mode = m ∧ s.mode_value = v) ∧
  (∀ m inner v s, dictGet r m = some inner → dictGet inner v = some s →
    s ∈ pre ∧ s.mode = m ∧ s.mode_value = v ∧
    ∀ t ∈ pre, t.mode = m → t.mode_value = v → t.cps ≤ s.cps)

theorem bestsInv_step (pre : List Score) (r : BestsOuter) (x : Score)
    (h : BestsInv pre r) : BestsInv (pre ++ [x]) (personalBestsStep r x) := by
  obtain ⟨h1, h2, h3⟩ := h
  have hfresh : dictGet r x.mode = none → ∀ t ∈ pre, t.mode ≠ x.mode := by
    intro hr t ht hmode
    have hsome := h1 t ht
    rw [hmode, hr] at hsome
    simp at hsome
  have hi0 : ∀ v s, dictGet ((dictGet r x.mode).getD []) v = some s →
      ∃ i, dictGet r x.mode = some i ∧ dictGet i v = some s := by
    intro v s hv
    cases hr : dictGet r x.mode with
    | none =>
      rw [hr] at hv
      simp [dictGet] at hv
    | some i =>
      rw [hr] at hv
      exact ⟨i, rfl, by simpa using hv⟩
  have hi0iff : ∀ v, (dictGet ((dictGet r x.mode).getD []) v).isSome = true ↔
      ∃ s ∈ pre, s.mode = x.mode ∧ s.mode_value = v := by
    intro v
    cases hr : dictGet r x.mode with
    | none =>
      simp only [Option.getD_none]
      constructor
      · intro habs
        simp [dictGet] at habs
      · rintro ⟨s, hs, hsm, hsv⟩
        exact absurd hsm (hfresh hr s hs)
    | some i =>
      simpa using h2 x.mode i hr v
  refine ⟨?_, ?_, ?_⟩
  · intro s hs
    rw [dictGet_personalBestsStep]
    by_cases hsm : s.mode = x.mode
    · simp [hsm]
    · rw [if_neg hsm]
      rcases List.mem_append.mp hs with hmem | hmem
      · exact h1 s hmem
      · simp at hmem
        subst hmem
        exact absurd rfl hsm
  · intro m inner hm v
    rw [dictGet_personalBestsStep] at hm
    by_cases hmm : m = x.mode
    · rw [if_pos hmm] at hm
      obtain rfl : stepInner r x = inner := by injection hm
      subst hmm
      rw [dictGet_stepInner]
      by_cases hv : v = x.mode_value
      · rw [if_pos hv]
        simp only [Option.isSome_some, true_iff]
        exact ⟨x, List.mem_append_right _ (by simp), rfl, hv.symm⟩
      · rw [if_neg hv]
        rw [hi0iff v]
        constructor
        · rintro ⟨s, hs, hsm, hsv⟩
          exact ⟨s, List.mem_append_left _ hs, hsm, hsv⟩
        · rintro ⟨s, hs, hsm, hsv⟩
          rcases List.mem_append.mp hs with hmem | hmem
          · exact ⟨s, hmem, hsm, hsv⟩
          · simp at hmem
            subst hmem
            exact absurd hsv.symm hv
    · rw [if_neg hmm] at hm
      rw [h2 m inner hm v]
      constructor
      · rintro ⟨s, hs, hsm, hsv⟩
        exact ⟨s, List.mem_append_left _ hs, hsm, hsv⟩
      · rintro ⟨s, hs, hsm, hsv⟩
        rcases List.mem_append.mp hs with hmem | hmem
        · exact ⟨s, hmem, hsm, hsv⟩
        · simp at hmem
          subst hmem
          exact absurd hsm.symm hmm
  · intro m inner v s hm hsv
    rw [dictGet_personalBestsStep] at hm
    by_cases hmm : m = x.mode
    · rw [if_pos hmm] at hm
      obtain rfl : stepInner r x = inner := by injection hm
      subst hmm
      rw [dictGet_stepInner] at hsv
      by_cases hv : v = x.mode_value
      · rw [if_pos hv] at hsv
        subst hv
        cases hb : dictGet ((dictGet r x.mode).getD []) x.mode_value with
        | none =>
          rw [hb] at hsv
          dsimp only at hsv
          simp only [Option.some.injEq] at hsv
          subst hsv
          refine ⟨List.mem_append_right _ (by simp), rfl, rfl, ?_⟩
          intro t ht htm htv
          rcases List.mem_append.mp ht with hmem | hmem
          · exfalso
            have hx := (hi0iff x.mode_value).mpr ⟨t, hmem, htm, htv⟩
            rw [hb] at hx
            simp at hx
          · simp at hmem
            subst hmem
            exact le_refl _
        | some best =>
          rw [hb] at hsv
          dsimp only at hsv
          obtain ⟨i, hri, hib⟩ := hi0 x.mode_value best hb
          have hold := h3 x.mode i x.mode_value best hri hib
          by_cases hlt : best.cps < x.cps
          · rw [if_pos hlt] at hsv
            simp only [Option.some.injEq] at hsv
            subst hsv
            refine ⟨List.mem_append_right _ (by simp), rfl, rfl, ?_⟩
            intro t ht htm htv
            rcases List.mem_append.mp ht with hmem | hmem
            · exact le_trans (hold.2.2.2 t hmem htm htv) (le_of_lt hlt)
            · simp at hmem
              subst hmem
              exact le_refl _
          · rw [if_neg hlt] at hsv
            simp only [Option.some.injEq] at hsv
            subst hsv
            refine ⟨List.mem_append_left _ hold.1, hold.2.1, hold.2.2.1, ?_⟩
            intro t ht htm htv
            rcases List.mem_append.mp ht with hmem | hmem
            · exact hold.2.2.2 t hmem htm htv
            · simp at hmem
              subst hmem
              exact le_of_not_lt hlt
      · rw [if_neg hv] at hsv
        obtain ⟨i, hri, his⟩ := hi0 v s hsv
        have hold := h3 x.mode i v s hri his
        refine ⟨List.mem_append_left _ hold.1, hold.2.1, hold.2.2.1, ?_⟩
        intro t ht htm htv
        rcases List.mem_append.mp ht with hmem | hmem
        · exact hold.2.2.2 t hmem htm htv
        · simp at hmem
          subst hmem
          exact absurd htv.symm hv
    · rw [if_neg hmm] at hm
      have hold := h3 m inner v s hm hsv
      refine ⟨List.mem_append_left _ hold.1, hold.2.1, hold.2.2.1, ?_⟩
      intro t ht htm htv
      rcases List.mem_append.mp ht with hmem | hmem
      · exact hold.2.2.2 t hmem htm htv
      · simp at hmem
        subst hmem
        exact absurd htm.symm hmm

theorem bestsInv_foldl (l : List Score) (pre : List Score) (r : BestsOuter)
    (h : BestsInv pre r) : BestsInv (pre ++ l) (l.foldl personalBestsStep r) := by
  induction l generalizing pre r with
  | nil => simpa using h
  | cons x xs ih =>
    have hstep := ih (pre ++ [x]) (personalBestsStep r x) (bestsInv_step pre r x h)
    simpa [List.append_assoc] using hstep

theorem personalBestsStep_keeps (r : BestsOuter) (x : Score) (k : String)
    (h : (dictGet r k).isSome = true) :
    (dictGet (personalBestsStep r x) k).isSome = true := by
  rw [dictGet_personalBestsStep]
  by_cases hk : k = x.mode <;> simp [hk, h]

theorem foldl_personalBestsStep_keeps (l : List Score) (r : BestsOuter) (k : String)
    (h : (dictGet r k).isSome = true) :
    (dictGet (l.foldl personalBestsStep r) k).isSome = true := by
  induction l generalizing r with
  | nil => exact h
  | cons x xs ih => exact ih _ (personalBestsStep_keeps r x k h)

theorem bestsInv_init : BestsInv [] [("time", []), ("clicks", [])] := by
  refine ⟨by simp, ?_, ?_⟩
  · intro m inner hm v
    have hinner : inner = [] := by
      simp only [dictGet] at hm
      split at hm
      · exact (Option.some.inj hm).symm
      · split at hm
        · exact (Option.some.inj hm).symm
        · cases hm
    subst hinner
    simp [dictGet]
  · intro m inner v s hm hsv
    have hinner : inner = [] := by
      simp only [dictGet] at hm
      split at hm
      · exact (Option.some.inj hm).symm
      · split at hm
        · exact (Option.some.inj hm).symm
        · cases hm
    subst hinner
    simp [dictGet] at hsv

/-- Claim C8: `get_user_personal_bests` always returns both top-level keys
"time" and "clicks" (even when empty); an inner key is present for exactly
those mode_values the user has at least one row for under that mode; and each
present entry is one of the user's rows for that mode and mode_value with the
highest cps among them. -/
theorem c8_personal_bests (db : List Score) (uid : Nat) :
    (dictGet (getUserPersonalBests db uid) "time").isSome = true ∧
    (dictGet (getUserPersonalBests db uid) "clicks").isSome = true ∧
    (∀ m inner, dictGet (getUserPersonalBests db uid) m = some inner →
      (∀ v, (dictGet inner v).isSome = true ↔
        ∃ s ∈ db, s.user_id = uid ∧ s.mode = m ∧ s.mode_value = v) ∧
      (∀ v s, dictGet inner v = some s →
        s ∈ db ∧ s.user_id = uid ∧ s.mode = m ∧ s.mode_value = v ∧
        ∀ t ∈ db, t.user_id = uid → t.mode = m → t.mode_value = v →
          t.cps ≤ s.cps)) := by
  have hinv := bestsInv_foldl (db.filter fun s => s.user_id == uid) []
    [("time", []), ("clicks", [])] bestsInv_init
  rw [List.nil_append] at hinv
  obtain ⟨h1, h2, h3⟩ := hinv
  refine ⟨foldl_personalBestsStep_keeps _ _ _ (by simp [dictGet]),
    foldl_personalBestsStep_keeps _ _ _ (by simp [dictGet]), ?_⟩
  intro m inner hm
  constructor
  · intro v
    rw [h2 m inner hm v]
    constructor
    · rintro ⟨s, hs, hsm, hsv⟩
      obtain ⟨hdb, hu⟩ := List.mem_filter.mp hs
      exact ⟨s, hdb, by simpa using hu, hsm, hsv⟩
    · rintro ⟨s, hdb, hu, hsm, hsv⟩
      exact ⟨s, List.mem_filter.mpr ⟨hdb, by simp [hu]⟩, hsm, hsv⟩
  · intro v s hsv
    obtain ⟨hmem, hsm, hsv2, hmax⟩ := h3 m inner v s hm hsv
    obtain ⟨hdb, hu⟩ := List.mem_filter.mp hmem
    exact ⟨hdb, by simpa using hu, hsm, hsv2, fun t htdb htu htm htv =>
      hmax t (List.mem_filter.mpr ⟨htdb, by simp [htu]⟩) htm htv⟩

/-- Single row of user 7 for the C8 witness: only a TIME/30 submission, yet
both top-level keys are present and "time" holds exactly the "30" entry. -/
def c8Row : Score := mkScore 1 7 "time" 30 5 10 none

theorem c8_witness :
    (dictGet (getUserPersonalBests [c8Row] 7) "time").isSome = true ∧
    (dictGet (getUserPersonalBests [c8Row] 7) "clicks").isSome = true ∧
    dictGet (getUserPersonalBests [c8Row] 7) "time" = some [(30, c8Row)] ∧
    (c8Row ∈ [c8Row] ∧ c8Row.user_id = 7 ∧ c8Row.mode = "time" ∧
      c8Row.mode_value = 30 ∧
      ∀ t ∈ [c8Row], t.user_id = 7 → t.mode = "time" → t.mode_value = 30 →
        t.cps ≤ c8Row.cps) := by
  have hc := c8_personal_bests [c8Row] 7
  have hsome : dictGet (getUserPersonalBests [c8Row] 7) "time" = some [(30, c8Row)] := by
    decide
  exact ⟨hc.1, hc.2.1, hsome, (hc.2.2 "time" [(30, c8Row)] hsome).2 30 c8Row (by decide)⟩
